import Mathlib

/-!
Shallow embedding of the user-cost backend (Express + Mongoose application):
the cost/user data model, the `POST /api/add`, `GET /api/report` and
`GET /api/users/:id` handlers, and the ECMAScript `Date` / `parseInt`
semantics those handlers rely on.

Conventions of the embedding:
* timestamps are integers, milliseconds since the Unix epoch (the ECMAScript
  time value of a `Date`);
* the process's local time zone is an explicit parameter `tz`, the offset of
  local time ahead of UTC in milliseconds (`new Date(y, m, d)` interprets its
  arguments in local time, so its time value is the local instant minus `tz`);
* JavaScript numbers carried by the API (`userid`, `sum`, ...) are modelled as
  integers — none of the verified claims concerns fractional amounts;
* the document store is explicit state: a handler takes the current list of
  persisted documents and returns the new list together with its HTTP
  response.
-/

/-! ## ECMAScript date arithmetic

`new Date(year, monthIndex, 1)` and `Date.prototype.getUTCDate` follow the
ECMAScript specification's proleptic Gregorian calendar (MakeDay, DayFromYear,
DateFromTime).  Note `Int` division `/` in Lean is floored division for
positive divisors, matching the `floor` operations of the ECMAScript spec. -/

/-- Milliseconds per day (ECMAScript msPerDay). -/
def msPerDay : Int := 86400000

/-- ECMAScript DayFromYear: the day number of January 1 of year `y`
(day 0 = 1970-01-01, proleptic Gregorian). -/
def dayFromYear (y : Int) : Int :=
  365 * (y - 1970) + (y - 1969) / 4 - (y - 1901) / 100 + (y - 1601) / 400

/-- ECMAScript leap-year test (InLeapYear). -/
def inLeapYear (y : Int) : Bool :=
  y % 4 == 0 && (y % 100 != 0 || y % 400 == 0)

/-- Cumulative day count before 0-based month `m` in a non-leap year. -/
def daysBeforeMonthNoLeap (m : Int) : Int :=
  if m ≤ 0 then 0
  else if m ≤ 1 then 31
  else if m ≤ 2 then 59
  else if m ≤ 3 then 90
  else if m ≤ 4 then 120
  else if m ≤ 5 then 151
  else if m ≤ 6 then 181
  else if m ≤ 7 then 212
  else if m ≤ 8 then 243
  else if m ≤ 9 then 273
  else if m ≤ 10 then 304
  else 334

/-- Day count from January 1 of year `y` to the first day of 0-based month
`m` of year `y` (the leap day counts from March on). -/
def daysBeforeMonth (y m : Int) : Int :=
  daysBeforeMonthNoLeap m + (if 2 ≤ m ∧ inLeapYear y = true then 1 else 0)

/-- ECMAScript MakeDay(y, mi, 1): the day number of the first day of month
index `mi` (any integer; overflowing month indices roll into adjacent years,
`ym = y + floor(mi / 12)`, `mn = mi mod 12`). -/
def makeDay (y mi : Int) : Int :=
  dayFromYear (y + mi / 12) + daysBeforeMonth (y + mi / 12) (mi % 12)

/-- ECMAScript MakeFullYear, applied by the `Date(year, month, day)`
constructor: year arguments 0–99 are interpreted as 1900–1999. -/
def makeFullYear (y : Int) : Int :=
  if 0 ≤ y ∧ y ≤ 99 then 1900 + y else y

/-- Time value of `new Date(y, mi, 1)` in a process whose local time zone is
`tz` milliseconds ahead of UTC: the constructor interprets its arguments as
local time, so the stored UTC time value is the local instant minus `tz`. -/
def newDateMs (tz y mi : Int) : Int :=
  makeDay (makeFullYear y) mi * msPerDay - tz

/-- Day-of-month of the day numbered `z` (day 0 = 1970-01-01), proleptic
Gregorian; the closed-form civil-from-days computation. -/
def civilDayOfMonth (z : Int) : Int :=
  let k := z + 719468
  let era := k / 146097
  let doe := k - era * 146097
  let yoe := (doe - doe / 1460 + doe / 36524 - doe / 146096) / 365
  let doy := doe - (365 * yoe + yoe / 4 - yoe / 100)
  let mp := (5 * doy + 2) / 153
  doy - (153 * mp + 2) / 5 + 1

/-- ECMAScript `Date.prototype.getUTCDate` on a time value `t`: the UTC
day-of-month.  A function of the time value alone — no time-zone input. -/
def getUTCDate (t : Int) : Int :=
  civilDayOfMonth (t / msPerDay)

/-! ## ECMAScript `parseInt(s, 10)` -/

/-- ECMAScript StrWhiteSpace characters (the ASCII ones). -/
def jsWhitespace (c : Char) : Bool :=
  c = ' ' || c = '\t' || c = '\n' || c = '\r' || c = '\x0b' || c = '\x0c'

/-- Numeric value of a decimal digit character. -/
def digitVal (c : Char) : Nat := c.toNat - '0'.toNat

/-- Value of a list of decimal digit characters, most significant first. -/
def digitsToNat (ds : List Char) : Nat :=
  ds.foldl (fun a c => 10 * a + digitVal c) 0

/-- The longest leading run of decimal digits, or `none` if there is none. -/
def parseUnsigned (cs : List Char) : Option Nat :=
  let ds := cs.takeWhile Char.isDigit
  if ds.isEmpty then none else some (digitsToNat ds)

/-- ECMAScript `parseInt(s, 10)`: skip leading white space, consume an
optional sign, then the longest leading run of decimal digits; `none` models
the `NaN` result when no digit follows. -/
def parseIntJS (s : String) : Option Int :=
  match s.toList.dropWhile jsWhitespace with
  | '-' :: rest => (parseUnsigned rest).map (fun n => -(n : Int))
  | '+' :: rest => (parseUnsigned rest).map (fun n => (n : Int))
  | cs => (parseUnsigned cs).map (fun n => (n : Int))

/-! ## Data model (Mongoose schemas) -/

/-- The fixed category enumeration of the `costSchema`. -/
def categories : List String := ["food", "health", "housing", "sport", "education"]

/-- A validated cost document (the fields of `costSchema`). -/
structure CostDoc where
  description : String
  category : String
  userid : Int
  sum : Int
  createdAt : Int
deriving DecidableEq

/-- A cost document as persisted, with its storage-assigned identifier. -/
structure SavedCost where
  _id : Nat
  description : String
  category : String
  userid : Int
  sum : Int
  createdAt : Int
deriving DecidableEq

/-- A user document (the fields of `userSchema` relevant to the handlers). -/
structure User where
  id : Int
  first_name : String
  last_name : String
deriving DecidableEq

/-- A Mongoose validation error raised by `costSchema`. -/
inductive CostError where
  | missingField (field : String)
  | invalidCategory (value : String)
deriving DecidableEq

/-- `costSchema` validation and defaulting, as run by `new Cost(fields)` /
`save`: every one of `description`, `category`, `userid`, `sum` is required,
`category` must belong to the fixed enumeration, and `createdAt` defaults to
the creation instant `now` (`Date.now`) when not supplied. -/
def costSchemaBuild (description : Option String) (category : Option String)
    (userid : Option Int) (sum : Option Int) (createdAt : Option Int)
    (now : Int) : Except CostError CostDoc :=
  match description with
  | none => .error (.missingField "description")
  | some d =>
    match category with
    | none => .error (.missingField "category")
    | some cat =>
      if cat ∈ categories then
        match userid with
        | none => .error (.missingField "userid")
        | some uid =>
          match sum with
          | none => .error (.missingField "sum")
          | some s => .ok ⟨d, cat, uid, s, createdAt.getD now⟩
      else .error (.invalidCategory cat)

/-! ## Route handlers -/

/-- The JSON body of a `POST /api/add` request: any of the recognised fields
may be absent.  A `createdAt` field may be present in the request, but the
handler destructures only `description`, `category`, `userid`, `sum`. -/
structure AddBody where
  description : Option String
  category : Option String
  userid : Option Int
  sum : Option Int
  createdAt : Option Int
deriving DecidableEq

/-- Response of the `POST /api/add` handler: HTTP status plus either the
saved document or the validation error serialised into the error body. -/
inductive AddResponse where
  | created (status : Nat) (cost : SavedCost)
  | error (status : Nat) (e : CostError)
deriving DecidableEq

/-- The `POST /api/add` handler (`router.post("/add")`): destructures
`{description, category, userid, sum}` from the body — a caller-supplied
`createdAt` is not among them, so `new Cost({...})` receives none and the
schema default applies — saves the document and answers `201` with the saved
document, or `400` with the validation error.  The store is explicit state;
the storage-assigned identifier is the next free one. -/
def addHandler (store : List SavedCost) (body : AddBody) (now : Int) :
    List SavedCost × AddResponse :=
  match costSchemaBuild body.description body.category body.userid body.sum none now with
  | .ok doc =>
      let saved : SavedCost :=
        { _id := store.length, description := doc.description,
          category := doc.category, userid := doc.userid, sum := doc.sum,
          createdAt := doc.createdAt }
      (store ++ [saved], .created 201 saved)
  | .error e => (store, .error 400 e)

/-- Direct document creation through the Mongoose model, `Cost.create(fields)`
with an explicit `createdAt` allowed (this is how the test suite inserts
records with controlled timestamps): the schema validates and defaults
exactly as on the route, but a supplied `createdAt` is passed through. -/
def costModelCreate (store : List SavedCost) (description : Option String)
    (category : Option String) (userid : Option Int) (sum : Option Int)
    (createdAt : Option Int) (now : Int) :
    List SavedCost × Except CostError SavedCost :=
  match costSchemaBuild description category userid sum createdAt now with
  | .ok doc =>
      let saved : SavedCost :=
        { _id := store.length, description := doc.description,
          category := doc.category, userid := doc.userid, sum := doc.sum,
          createdAt := doc.createdAt }
      (store ++ [saved], .ok saved)
  | .error e => (store, .error e)

/-- One `{sum, description, day}` entry of a report bucket. -/
structure ReportEntry where
  sum : Int
  description : String
  day : Int
deriving DecidableEq

/-- The report document: the `costs` field is the ordered list of single-key
groupings, each a category name paired with its entries. -/
structure Report where
  userid : Int
  year : Int
  month : Int
  costs : List (String × List ReportEntry)
deriving DecidableEq

/-- Response of the `GET /api/report` handler. -/
inductive ReportResponse where
  | ok (status : Nat) (r : Report)
  | error (status : Nat) (message : String)
deriving DecidableEq

/-- The records the report query matches: `Cost.find({userid: id,
createdAt: {$gte: startDate, $lt: endDate}})` with
`startDate = new Date(year, month - 1, 1)` and
`endDate = new Date(year, month, 1)`. -/
def matchedCosts (store : List SavedCost) (id year month tz : Int) :
    List SavedCost :=
  store.filter (fun c =>
    c.userid == id && decide (newDateMs tz year (month - 1) ≤ c.createdAt) &&
      decide (c.createdAt < newDateMs tz year month))

/-- The bucket of category `cat`: the matched records of that category in
store order, each emitted as `{sum, description, day}` with
`day = createdAt.getUTCDate()`. -/
def bucket (cat : String) (l : List SavedCost) : List ReportEntry :=
  (l.filter (fun c => c.category == cat)).map
    (fun c => { sum := c.sum, description := c.description,
                day := getUTCDate c.createdAt })

/-- The body of the report route after parameter parsing: group the matched
records by category into the fixed ordered category list.  When a matched
record's category is outside the enumeration, `grouped[c.category]` is
`undefined` and the `push` throws, which the handler's `catch` turns into a
`500` response; the guard models that. -/
def buildReport (store : List SavedCost) (tz id year month : Int) :
    ReportResponse :=
  if (matchedCosts store id year month tz).all
      (fun c => decide (c.category ∈ categories)) then
    .ok 200 { userid := id, year := year, month := month,
              costs := categories.map
                (fun cat => (cat, bucket cat (matchedCosts store id year month tz))) }
  else .error 500 "TypeError"

/-- The `GET /api/report` handler (`router.get("/report")`): parse `id`,
`year`, `month` with `parseInt(_, 10)`; if any is `NaN` answer `400` before
querying storage, otherwise build the grouped report.  The handler only
reads the store, so the returned state is the input store in every case. -/
def reportHandler (store : List SavedCost) (tz : Int)
    (idS yearS monthS : String) : List SavedCost × ReportResponse :=
  match parseIntJS idS, parseIntJS yearS, parseIntJS monthS with
  | some id, some year, some month => (store, buildReport store tz id year month)
  | _, _, _ => (store, .error 400 "Invalid id, year, or month parameter.")

/-- The `{id, first_name, last_name, total}` summary document. -/
structure UserSummary where
  id : Int
  first_name : String
  last_name : String
  total : Int
deriving DecidableEq

/-- Response of the `GET /api/users/:id` handler. -/
inductive UserResponse where
  | ok (status : Nat) (u : UserSummary)
  | error (status : Nat) (message : String)
deriving DecidableEq

/-- The `GET /api/users/:id` handler: parse the path id with
`parseInt(_, 10)` (`400` on `NaN`), look the user up (`404` when absent),
then sum the `sum` fields of all of that user's cost records —
`userCosts.reduce((sum, cost) => sum + cost.sum, 0)` — with no date
filter. -/
def getUserHandler (users : List User) (costs : List SavedCost)
    (idS : String) : UserResponse :=
  match parseIntJS idS with
  | none => .error 400 "Invalid user ID."
  | some id =>
    match users.find? (fun u => u.id == id) with
    | none => .error 404 "User not found."
    | some userDoc =>
      let userCosts := costs.filter (fun c => c.userid == id)
      let totalSum := userCosts.foldl (fun sum cost => sum + cost.sum) 0
      .ok 200 { id := userDoc.id, first_name := userDoc.first_name,
                last_name := userDoc.last_name, total := totalSum }

/-- Modelled from the spec: the first instant of `(year, month)` (1-based
month) in the reference time zone `tz`, expressed as a UTC time value.
This is the spec's wording of the report interval endpoints, to be compared
with the `newDateMs` bounds the code computes. -/
def specFirstInstant (tz year month : Int) : Int :=
  makeDay year (month - 1) * msPerDay - tz

/-! ## Calendar lemmas -/

/-- A Gregorian year has at least 365 days: a century non-leap correction can
only fire in years divisible by 4, where the quadrennial leap day also
fires. -/
theorem dayFromYear_succ_ge (y : Int) : dayFromYear y + 365 ≤ dayFromYear (y + 1) := by
  unfold dayFromYear
  omega

/-- A Gregorian year has at most 366 days. -/
theorem dayFromYear_succ_le (y : Int) : dayFromYear (y + 1) ≤ dayFromYear y + 366 := by
  unfold dayFromYear
  omega

/-- Consecutive cumulative month offsets are at least two days apart (the
shortest month has 28 days). -/
theorem daysBeforeMonthNoLeap_gap (r : Int) (h0 : 0 ≤ r) (h10 : r ≤ 10) :
    daysBeforeMonthNoLeap r + 2 ≤ daysBeforeMonthNoLeap (r + 1) := by
  interval_cases r <;> decide

/-- Within a year, the cumulative month offsets strictly increase. -/
theorem daysBeforeMonth_lt_succ (y r : Int) (h0 : 0 ≤ r) (h10 : r ≤ 10) :
    daysBeforeMonth y r < daysBeforeMonth y (r + 1) := by
  have hg := daysBeforeMonthNoLeap_gap r h0 h10
  unfold daysBeforeMonth
  split_ifs <;> omega

/-- The December offset is at most 335 days. -/
theorem daysBeforeMonth_11_le (y : Int) : daysBeforeMonth y 11 ≤ 335 := by
  have h : daysBeforeMonthNoLeap 11 = 334 := by decide
  unfold daysBeforeMonth
  split_ifs <;> omega

/-- The January offset is zero. -/
theorem daysBeforeMonth_0 (y : Int) : daysBeforeMonth y 0 = 0 := by
  have h : daysBeforeMonthNoLeap 0 = 0 := by decide
  unfold daysBeforeMonth
  split_ifs <;> omega

/-- MakeDay is strictly monotone from one month index to the next: the first
day of a month strictly precedes the first day of the following month, the
year boundary included. -/
theorem makeDay_lt_succ (y mi : Int) : makeDay y mi < makeDay y (mi + 1) := by
  unfold makeDay
  rcases lt_or_ge (mi % 12) 11 with hr | hr
  · have hdiv : (mi + 1) / 12 = mi / 12 := by omega
    have hmod : (mi + 1) % 12 = mi % 12 + 1 := by omega
    rw [hdiv, hmod]
    have := daysBeforeMonth_lt_succ (y + mi / 12) (mi % 12) (by omega) (by omega)
    omega
  · have hr11 : mi % 12 = 11 := by omega
    have hdiv : (mi + 1) / 12 = mi / 12 + 1 := by omega
    have hmod : (mi + 1) % 12 = 0 := by omega
    rw [hdiv, hmod, hr11]
    have h1 := daysBeforeMonth_11_le (y + mi / 12)
    have h2 := daysBeforeMonth_0 (y + (mi / 12 + 1))
    have h3 := dayFromYear_succ_ge (y + mi / 12)
    have hy : y + (mi / 12 + 1) = (y + mi / 12) + 1 := by ring
    rw [hy] at h2 ⊢
    omega

/-- MakeDay rolls month index 12 over to January of the following year. -/
theorem makeDay_12_rollover (y : Int) : makeDay y 12 = makeDay (y + 1) 0 := by
  unfold makeDay
  norm_num

/-- On year arguments outside 0–99 the constructor's two-digit-year rule is
the identity. -/
theorem makeFullYear_eq_self (y : Int) (hy : ¬ (0 ≤ y ∧ y ≤ 99)) :
    makeFullYear y = y := by
  unfold makeFullYear
  rw [if_neg hy]

/-! ## Grouping and aggregation lemmas -/

/-- A category with no matching record gets an empty bucket. -/
theorem bucket_eq_nil (cat : String) (l : List SavedCost)
    (h : ∀ c ∈ l, c.category ≠ cat) : bucket cat l = [] := by
  unfold bucket
  rw [List.filter_eq_nil_iff.mpr, List.map_nil]
  intro c hc
  simp only [beq_iff_eq]
  exact h c hc

/-- Every record of the list lands, as its `{sum, description, day}` entry,
in the bucket of its own category. -/
theorem mem_bucket_self (c : SavedCost) (l : List SavedCost) (hc : c ∈ l) :
    ({ sum := c.sum, description := c.description,
       day := getUTCDate c.createdAt } : ReportEntry) ∈ bucket c.category l := by
  unfold bucket
  exact List.mem_map_of_mem _ (List.mem_filter.mpr ⟨hc, by simp⟩)

/-- Every entry of a bucket comes from a record of the list whose category is
the bucket's. -/
theorem of_mem_bucket (cat : String) (l : List SavedCost) (e : ReportEntry)
    (he : e ∈ bucket cat l) :
    ∃ c ∈ l, c.category = cat ∧ e.sum = c.sum ∧ e.description = c.description ∧
      e.day = getUTCDate c.createdAt := by
  unfold bucket at he
  obtain ⟨c, hc, rfl⟩ := List.mem_map.mp he
  obtain ⟨hcl, hcat⟩ := List.mem_filter.mp hc
  exact ⟨c, hcl, by simpa using hcat, rfl, rfl, rfl⟩

/-- When every record's category belongs to the fixed enumeration, the five
bucket sizes add up to the number of records: the grouping is a partition. -/
theorem sum_bucket_lengths (l : List SavedCost)
    (h : ∀ c ∈ l, c.category ∈ categories) :
    (categories.map fun cat => (bucket cat l).length).sum = l.length := by
  induction l with
  | nil => decide
  | cons c t ih =>
    have hc : c.category ∈ categories := h c (List.mem_cons_self c t)
    have ht : ∀ x ∈ t, x.category ∈ categories :=
      fun x hx => h x (List.mem_cons_of_mem c hx)
    have iht := ih ht
    simp only [categories, List.mem_cons, List.not_mem_nil, or_false] at hc
    simp only [categories, List.map_cons, List.map_nil, List.sum_cons,
      List.sum_nil, bucket, List.filter_cons, List.length_map] at iht ⊢
    rcases hc with h1 | h1 | h1 | h1 | h1 <;>
      simp only [h1, beq_iff_eq, reduceIte, List.length_cons, String.reduceEq] <;>
      omega

/-- `reduce((sum, cost) => sum + cost.sum, 0)` computes the sum of the `sum`
fields. -/
theorem foldl_sum_eq (l : List SavedCost) :
    ∀ a : Int, l.foldl (fun sum cost => sum + cost.sum) a = a + (l.map (·.sum)).sum := by
  induction l with
  | nil => intro a; simp
  | cons c t ih =>
    intro a
    simp only [List.foldl_cons, List.map_cons, List.sum_cons, ih (a + c.sum)]
    ring

/-! ## Schema validation lemmas -/

/-- The `createdAt` of a document that passes schema validation is the
supplied value if any, else the creation instant. -/
theorem costSchemaBuild_createdAt (d : Option String) (c : Option String)
    (u : Option Int) (s : Option Int) (t : Option Int) (now : Int)
    (doc : CostDoc) (h : costSchemaBuild d c u s t now = .ok doc) :
    doc.createdAt = t.getD now := by
  unfold costSchemaBuild at h
  cases d with
  | none => exact absurd h (by simp)
  | some d =>
    cases c with
    | none => exact absurd h (by simp)
    | some c =>
      simp only at h
      split at h
      · cases u with
        | none => exact absurd h (by simp)
        | some u =>
          cases s with
          | none => exact absurd h (by simp)
          | some s =>
            simp only [Except.ok.injEq] at h
            rw [← h]
      · exact absurd h (by simp)

/-- Schema validation fails whenever a required field is missing or the
category is outside the enumeration. -/
theorem costSchemaBuild_invalid (d : Option String) (c : Option String)
    (u : Option Int) (s : Option Int) (t : Option Int) (now : Int)
    (h : d = none ∨ c = none ∨ u = none ∨ s = none ∨
      ∃ cat, c = some cat ∧ cat ∉ categories) :
    ∃ e, costSchemaBuild d c u s t now = .error e := by
  unfold costSchemaBuild
  rcases h with h | h | h | h | ⟨cat, hc, hcat⟩
  · subst h; exact ⟨_, rfl⟩
  · subst h; cases d <;> exact ⟨_, rfl⟩
  · subst h
    cases d
    · exact ⟨_, rfl⟩
    · cases c
      · exact ⟨_, rfl⟩
      · simp only
        split
        · exact ⟨_, rfl⟩
        · exact ⟨_, rfl⟩
  · subst h
    cases d
    · exact ⟨_, rfl⟩
    · cases c
      · exact ⟨_, rfl⟩
      · simp only
        split
        · cases u <;> exact ⟨_, rfl⟩
        · exact ⟨_, rfl⟩
  · subst hc
    cases d
    · exact ⟨_, rfl⟩
    · simp only
      rw [if_neg hcat]
      exact ⟨_, rfl⟩

/-! ## Concrete documents used to instantiate the theorems -/

/-- An add request that also carries an explicit `createdAt` (1000 ms). -/
def lunchBody : AddBody :=
  { description := some "Lunch", category := some "food", userid := some 7,
    sum := some 12, createdAt := some 1000 }

/-- The document the add route persists from `lunchBody` at creation instant
2000 ms: the supplied `createdAt` is not among the destructured fields. -/
def lunchSavedNow : SavedCost :=
  { _id := 0, description := "Lunch", category := "food", userid := 7,
    sum := 12, createdAt := 2000 }

/-- The document `Cost.create` persists from the same fields when the
caller-supplied `createdAt` of 1000 ms is passed through to the schema. -/
def lunchSavedAt1000 : SavedCost :=
  { _id := 0, description := "Lunch", category := "food", userid := 7,
    sum := 12, createdAt := 1000 }

/-- An add request with no `category` field. -/
def noCategoryBody : AddBody :=
  { description := some "Missing category", category := none,
    userid := some 10, sum := some 5, createdAt := none }

/-- The `createdAt` of the document an add response reports as created. -/
def createdAtOfResponse : AddResponse → Option Int
  | .created _ c => some c.createdAt
  | .error _ _ => none

/-! ## C4 — `createdAt` assignment on cost creation -/

/-- C4 counterexample: the claim "if the caller supplies a `createdAt` value,
the persisted cost record's `createdAt` equals that supplied value" is false
for the add operation: `lunchBody` supplies `createdAt = 1000`, yet the
record the route persists at creation instant 2000 carries `createdAt =
2000`, because the handler destructures only `description`, `category`,
`userid`, `sum` from the body. -/
theorem add_createdAt_supplied_ignored_cex :
    lunchBody.createdAt = some 1000 ∧
    createdAtOfResponse (addHandler [] lunchBody 2000).2 = some 2000 ∧
    createdAtOfResponse (addHandler [] lunchBody 2000).2 ≠ some 1000 := by
  decide

/-- C4 (amended): a `createdAt` supplied in the add request body is ignored —
the record persisted through `POST /api/add` always gets the record-creation
time.  A supplied `createdAt` is honoured only when the record is created
directly through the storage model (`Cost.create`), where the schema default
applies exactly when no value is supplied. -/
theorem add_createdAt_assignment (store : List SavedCost) (body : AddBody)
    (now : Int) :
    (∀ saved : SavedCost, (addHandler store body now).2 = .created 201 saved →
       saved.createdAt = now) ∧
    (∀ (d cs : String) (u su t : Int) (saved : SavedCost),
       (costModelCreate store (some d) (some cs) (some u) (some su) (some t) now).2 =
         .ok saved → saved.createdAt = t) ∧
    (∀ (d cs : String) (u su : Int) (saved : SavedCost),
       (costModelCreate store (some d) (some cs) (some u) (some su) none now).2 =
         .ok saved → saved.createdAt = now) := by
  refine ⟨?_, ?_, ?_⟩
  · intro saved h
    unfold addHandler at h
    split at h
    · rename_i doc hdoc
      simp only [AddResponse.created.injEq] at h
      have := costSchemaBuild_createdAt body.description body.category
        body.userid body.sum none now doc hdoc
      rw [← h.2]
      simpa using this
    · simp at h
  · intro d cs u su t saved h
    unfold costModelCreate at h
    split at h
    · rename_i doc hdoc
      simp only [Except.ok.injEq] at h
      have := costSchemaBuild_createdAt (some d) (some cs) (some u) (some su)
        (some t) now doc hdoc
      rw [← h]
      simpa using this
    · simp at h
  · intro d cs u su saved h
    unfold costModelCreate at h
    split at h
    · rename_i doc hdoc
      simp only [Except.ok.injEq] at h
      have := costSchemaBuild_createdAt (some d) (some cs) (some u) (some su)
        none now doc hdoc
      rw [← h]
      simpa using this
    · simp at h

/-- C4 witness: at the concrete inputs, the route assigns the creation
instant 2000 while the model-level create keeps the supplied 1000. -/
theorem add_createdAt_assignment_witness :
    lunchSavedNow.createdAt = 2000 ∧ lunchSavedAt1000.createdAt = 1000 := by
  have h := add_createdAt_assignment [] lunchBody 2000
  exact ⟨h.1 lunchSavedNow (by decide),
         h.2.1 "Lunch" "food" 7 12 1000 lunchSavedAt1000 (by rfl)⟩

/-! ## C5 — invalid cost additions are rejected and persist nothing -/

/-- C5: an add operation missing any of `description`, `category`, `userid`,
`sum`, or whose category is outside the 5-value enumeration, answers a
400-class error and leaves the store unchanged. -/
theorem add_invalid_nothing_persisted (store : List SavedCost) (body : AddBody)
    (now : Int)
    (h : body.description = none ∨ body.category = none ∨ body.userid = none ∨
      body.sum = none ∨ ∃ cat, body.category = some cat ∧ cat ∉ categories) :
    (addHandler store body now).1 = store ∧
    ∃ e, (addHandler store body now).2 = .error 400 e := by
  obtain ⟨e, he⟩ := costSchemaBuild_invalid body.description body.category
    body.userid body.sum none now h
  unfold addHandler
  rw [he]
  exact ⟨rfl, e, rfl⟩

/-- C5 witness: the category-less request is rejected with a 400 error and
the store stays empty. -/
theorem add_invalid_nothing_persisted_witness :
    (addHandler [] noCategoryBody 0).1 = [] ∧
    ∃ e, (addHandler [] noCategoryBody 0).2 = .error 400 e :=
  add_invalid_nothing_persisted [] noCategoryBody 0 (Or.inr (Or.inl rfl))

/-! ## C6 — valid cost additions echo the submitted fields -/

/-- C6: a valid add operation answers 201 with exactly the submitted
`description`, `category`, `userid`, `sum`, plus the storage-assigned
identifier `_id` (a field distinct from the domain `userid`), and appends
exactly that record to the store. -/
theorem add_valid_echoes (store : List SavedCost) (d cat : String)
    (u su : Int) (t : Option Int) (now : Int) (hcat : cat ∈ categories) :
    ∃ saved : SavedCost,
      (addHandler store ⟨some d, some cat, some u, some su, t⟩ now).2 =
        .created 201 saved ∧
      saved.description = d ∧ saved.category = cat ∧ saved.userid = u ∧
      saved.sum = su ∧ saved._id = store.length ∧
      (addHandler store ⟨some d, some cat, some u, some su, t⟩ now).1 =
        store ++ [saved] := by
  unfold addHandler costSchemaBuild
  simp only
  rw [if_pos hcat]
  exact ⟨_, rfl, rfl, rfl, rfl, rfl, rfl, rfl⟩

/-- C6 witness: adding the test-suite document echoes it back with the
storage-assigned identifier. -/
theorem add_valid_echoes_witness :
    ∃ saved : SavedCost,
      (addHandler [] ⟨some "Test cost item", some "food", some 42, some 15, none⟩ 0).2 =
        .created 201 saved ∧
      saved.description = "Test cost item" ∧ saved.category = "food" ∧
      saved.userid = 42 ∧ saved.sum = 15 ∧ saved._id = 0 ∧
      (addHandler [] ⟨some "Test cost item", some "food", some 42, some 15, none⟩ 0).1 =
        [saved] :=
  add_valid_echoes [] "Test cost item" "food" 42 15 none 0 (by decide)

/-! ## C1 — the costs array is the fixed ordered five-category grouping -/

/-- C1: for every report request whose three parameters parse, a successful
response's `costs` is a sequence of exactly 5 single-key groupings, one per
category, in the fixed order `[food, health, housing, sport, education]`,
and a category with no matching cost record appears with an empty list. -/
theorem report_costs_five_categories (store : List SavedCost) (tz : Int)
    (idS yearS monthS : String) (id year month : Int) (s : Nat) (r : Report)
    (hid : parseIntJS idS = some id) (hyear : parseIntJS yearS = some year)
    (hmonth : parseIntJS monthS = some month)
    (h : (reportHandler store tz idS yearS monthS).2 = .ok s r) :
    r.costs.map Prod.fst = ["food", "health", "housing", "sport", "education"] ∧
    r.costs.length = 5 ∧
    ∀ p ∈ r.costs,
      (∀ c ∈ matchedCosts store id year month tz, c.category ≠ p.1) → p.2 = [] := by
  unfold reportHandler at h
  rw [hid, hyear, hmonth] at h
  simp only at h
  unfold buildReport at h
  split at h
  · simp only [ReportResponse.ok.injEq] at h
    obtain ⟨hs, hr⟩ := h
    subst hr
    refine ⟨by simp [categories], by simp [categories], ?_⟩
    intro p hp hnone
    simp only [categories, List.map_cons, List.map_nil, List.mem_cons,
      List.not_mem_nil, or_false] at hp
    rcases hp with hp | hp | hp | hp | hp <;> subst hp <;>
      exact bucket_eq_nil _ _ (fun c hc => hnone c hc)
  · simp at h

/-- An empty store's June 2025 report for user 123. -/
def emptyJuneReport : Report :=
  { userid := 123, year := 2025, month := 6,
    costs := [("food", []), ("health", []), ("housing", []), ("sport", []),
              ("education", [])] }

/-- C1 witness: the report over an empty store carries all five categories
with empty lists. -/
theorem report_costs_five_categories_witness :
    emptyJuneReport.costs.map Prod.fst =
      ["food", "health", "housing", "sport", "education"] ∧
    emptyJuneReport.costs.length = 5 ∧
    ∀ p ∈ emptyJuneReport.costs,
      (∀ c ∈ matchedCosts [] 123 2025 6 0, c.category ≠ p.1) → p.2 = [] :=
  report_costs_five_categories [] 0 "123" "2025" "6" 123 2025 6 200
    emptyJuneReport rfl rfl rfl (by decide)

/-! ## C3 — report entries carry the UTC day-of-month of `createdAt` -/

/-- C3: in a successful report, every matched record is emitted, in the
bucket of its own category, as `{sum, description, day}` with `day` the UTC
day-of-month of its `createdAt` (`getUTCDate` is a function of the time
value alone — the time-zone parameter `tz` does not enter it); conversely
every emitted entry arises this way from a matched record. -/
theorem report_day_utc (store : List SavedCost) (tz id year month : Int)
    (s : Nat) (r : Report)
    (h : buildReport store tz id year month = .ok s r) :
    (∀ c ∈ matchedCosts store id year month tz,
       ∃ p ∈ r.costs, p.1 = c.category ∧
         ({ sum := c.sum, description := c.description,
            day := getUTCDate c.createdAt } : ReportEntry) ∈ p.2) ∧
    (∀ p ∈ r.costs, ∀ e ∈ p.2, ∃ c ∈ matchedCosts store id year month tz,
       c.category = p.1 ∧ e.sum = c.sum ∧ e.description = c.description ∧
       e.day = getUTCDate c.createdAt) := by
  unfold buildReport at h
  split at h
  · rename_i hall
    simp only [ReportResponse.ok.injEq] at h
    obtain ⟨hs, hr⟩ := h
    subst hr
    constructor
    · intro c hc
      have hcat : c.category ∈ categories := by
        simpa using List.all_eq_true.mp hall c hc
      exact ⟨(c.category, bucket c.category (matchedCosts store id year month tz)),
        List.mem_map_of_mem _ hcat, rfl, mem_bucket_self c _ hc⟩
    · intro p hp e he
      obtain ⟨cat, hcat, rfl⟩ := List.mem_map.mp hp
      exact of_mem_bucket cat _ e he
  · simp at h

/-- A cost record at noon UTC on 2025-06-01 for user 7. -/
def juneCost : SavedCost :=
  { _id := 0, description := "Lunch", category := "food", userid := 7,
    sum := 12, createdAt := newDateMs 0 2025 5 + 43200000 }

/-- The June 2025 report of a store holding exactly `juneCost`. -/
def juneReport : Report :=
  { userid := 7, year := 2025, month := 6,
    costs := [("food", [{ sum := 12, description := "Lunch", day := 1 }]),
              ("health", []), ("housing", []), ("sport", []),
              ("education", [])] }

/-- C3 witness: the concrete June report places `juneCost` under `food` with
`day = 1`, the UTC day-of-month of its `createdAt`. -/
theorem report_day_utc_witness :
    ∃ p ∈ juneReport.costs, p.1 = juneCost.category ∧
      ({ sum := juneCost.sum, description := juneCost.description,
         day := getUTCDate juneCost.createdAt } : ReportEntry) ∈ p.2 :=
  (report_day_utc [juneCost] 0 7 2025 6 200 juneReport (by decide)).1
    juneCost (by decide)

/-! ## C9 — the grouping partitions the matched records -/

/-- C9: in a successful report (in particular every matched record's category
is one of the 5 enumeration values), the total number of entries across the
five buckets equals the number of matched records: each matched record
contributes exactly one entry. -/
theorem report_partition (store : List SavedCost) (tz id year month : Int)
    (s : Nat) (r : Report)
    (h : buildReport store tz id year month = .ok s r) :
    (r.costs.map fun p => p.2.length).sum =
      (matchedCosts store id year month tz).length := by
  unfold buildReport at h
  split at h
  · rename_i hall
    simp only [ReportResponse.ok.injEq] at h
    obtain ⟨hs, hr⟩ := h
    subst hr
    have hmem : ∀ c ∈ matchedCosts store id year month tz, c.category ∈ categories :=
      fun c hc => by simpa using List.all_eq_true.mp hall c hc
    have hsum := sum_bucket_lengths (matchedCosts store id year month tz) hmem
    simpa [List.map_map, Function.comp] using hsum
  · simp at h

/-- C9 witness: one matched record, one entry across the five buckets. -/
theorem report_partition_witness :
    (juneReport.costs.map fun p => p.2.length).sum =
      (matchedCosts [juneCost] 7 2025 6 0).length :=
  report_partition [juneCost] 0 7 2025 6 200 juneReport (by decide)

/-! ## C2 — the monthly report interval -/

/-- On years outside 0–99 the code's `startDate` is the spec's first instant
of `(year, month)`. -/
theorem newDateMs_start_eq (tz year month : Int) (hy : ¬ (0 ≤ year ∧ year ≤ 99)) :
    newDateMs tz year (month - 1) = specFirstInstant tz year month := by
  unfold newDateMs specFirstInstant
  rw [makeFullYear_eq_self year hy]

/-- On years outside 0–99 the code's `endDate` is the spec's first instant of
the following month. -/
theorem newDateMs_end_eq (tz year month : Int) (hy : ¬ (0 ≤ year ∧ year ≤ 99)) :
    newDateMs tz year month = specFirstInstant tz year (month + 1) := by
  unfold newDateMs specFirstInstant
  rw [makeFullYear_eq_self year hy]
  norm_num

/-- The first instant of a month strictly precedes the first instant of the
following month, whatever the month number (overflowing numbers roll over
calendar-safely). -/
theorem specFirstInstant_lt_next (tz year month : Int) :
    specFirstInstant tz year month < specFirstInstant tz year (month + 1) := by
  unfold specFirstInstant
  have h := makeDay_lt_succ year (month - 1)
  have he : month - 1 + 1 = month := by ring
  rw [he] at h
  have he2 : month + 1 - 1 = month := by ring
  rw [he2]
  unfold msPerDay
  omega

/-- A record at the first instant of June 2025 (UTC reference zone). -/
def c2InCost : SavedCost :=
  { _id := 0, description := "in", category := "food", userid := 7,
    sum := 1, createdAt := specFirstInstant 0 2025 6 }

/-- A record at the first instant of July 2025 (UTC reference zone). -/
def c2OutCost : SavedCost :=
  { _id := 1, description := "out", category := "food", userid := 7,
    sum := 1, createdAt := specFirstInstant 0 2025 7 }

/-- A record at the first instant of January of year 99 (proleptic). -/
def c2AncientCost : SavedCost :=
  { _id := 2, description := "ancient", category := "food", userid := 7,
    sum := 1, createdAt := specFirstInstant 0 99 1 }

/-- C2 counterexample: the claim fails on two-digit years, which the `Date`
constructor maps to 1900+year.  `c2AncientCost` has `userid = 7` and
`createdAt` equal to the first instant of January of year 99, yet the report
query for `(id 7, year 99, month 1)` does not match it — the code's window is
January 1999, as the last conjunct shows. -/
theorem report_month_interval_cex :
    c2AncientCost.userid = 7 ∧
    c2AncientCost.createdAt = specFirstInstant 0 99 1 ∧
    c2AncientCost ∈ [c2AncientCost] ∧
    c2AncientCost ∉ matchedCosts [c2AncientCost] 7 99 1 0 ∧
    newDateMs 0 99 0 = specFirstInstant 0 1999 1 := by
  decide

/-- C2 (amended): for every report request whose year is outside 0–99 (the
`Date` constructor interprets 0–99 as 1900–1999), the records considered are
exactly those with the requested `userid` and `createdAt` in the half-open
interval from the first instant of `(year, month)` to the first instant of
the following month: a record at the former instant is included, a record at
the latter excluded, and for `month = 12` the interval's end is the first
instant of January of `year + 1` — calendar-safe overflow, not wraparound. -/
theorem report_month_interval (store : List SavedCost) (tz id year month : Int)
    (hy : ¬ (0 ≤ year ∧ year ≤ 99)) :
    (∀ c : SavedCost, c ∈ matchedCosts store id year month tz ↔
       c ∈ store ∧ c.userid = id ∧
       specFirstInstant tz year month ≤ c.createdAt ∧
       c.createdAt < specFirstInstant tz year (month + 1)) ∧
    (∀ c ∈ store, c.userid = id → c.createdAt = specFirstInstant tz year month →
       c ∈ matchedCosts store id year month tz) ∧
    (∀ c ∈ store, c.createdAt = specFirstInstant tz year (month + 1) →
       c ∉ matchedCosts store id year month tz) ∧
    newDateMs tz year month = specFirstInstant tz year (month + 1) ∧
    (month = 12 → newDateMs tz year month = specFirstInstant tz (year + 1) 1) := by
  have hstart := newDateMs_start_eq tz year month hy
  have hend := newDateMs_end_eq tz year month hy
  have hkey : ∀ c : SavedCost, c ∈ matchedCosts store id year month tz ↔
      c ∈ store ∧ c.userid = id ∧
      specFirstInstant tz year month ≤ c.createdAt ∧
      c.createdAt < specFirstInstant tz year (month + 1) := by
    intro c
    unfold matchedCosts
    rw [List.mem_filter, hstart, hend]
    simp only [Bool.and_eq_true, beq_iff_eq, decide_eq_true_eq]
    tauto
  refine ⟨hkey, ?_, ?_, hend, ?_⟩
  · intro c hc hu he
    refine (hkey c).mpr ⟨hc, hu, he.ge, ?_⟩
    rw [he]
    exact specFirstInstant_lt_next tz year month
  · intro c hc he hmem
    have := ((hkey c).mp hmem).2.2.2
    rw [he] at this
    exact lt_irrefl _ this
  · intro h12
    subst h12
    unfold newDateMs specFirstInstant
    rw [makeFullYear_eq_self year hy, makeDay_12_rollover]
    norm_num

/-- C2 witness: at `(year, month) = (2025, 6)` the boundary behaviour is as
stated, and the December 2025 window ends at the first instant of January
2026. -/
theorem report_month_interval_witness :
    c2InCost ∈ matchedCosts [c2InCost] 7 2025 6 0 ∧
    c2OutCost ∉ matchedCosts [c2OutCost] 7 2025 6 0 ∧
    newDateMs 0 2025 12 = specFirstInstant 0 2026 1 := by
  have h1 := report_month_interval [c2InCost] 0 7 2025 6 (by decide)
  have h2 := report_month_interval [c2OutCost] 0 7 2025 6 (by decide)
  have h3 := report_month_interval [] 0 7 2025 12 (by decide)
  exact ⟨h1.2.1 c2InCost (by decide) (by decide) (by decide),
         h2.2.2.1 c2OutCost (by decide) (by decide),
         h3.2.2.2.2 rfl⟩

/-! ## C7 — the user summary and its full-history total -/

/-- C7: for a parseable user id, the summary operation answers 404 when no
user carries that id; otherwise it returns the user's `id`, `first_name`,
`last_name` and the sum of the `sum` fields of all that user's cost records
over the full history, which is 0 when there are none. -/
theorem user_summary_total (users : List User) (costs : List SavedCost)
    (idS : String) (id : Int) (hid : parseIntJS idS = some id) :
    ((∀ u ∈ users, u.id ≠ id) →
       getUserHandler users costs idS = .error 404 "User not found.") ∧
    (∀ u : User, users.find? (fun v => v.id == id) = some u →
       getUserHandler users costs idS =
         .ok 200 { id := u.id, first_name := u.first_name,
                   last_name := u.last_name,
                   total := ((costs.filter (fun c => c.userid == id)).map
                     (·.sum)).sum }) ∧
    ((∀ c ∈ costs, c.userid ≠ id) → ∀ u : User,
       users.find? (fun v => v.id == id) = some u →
       getUserHandler users costs idS =
         .ok 200 { id := u.id, first_name := u.first_name,
                   last_name := u.last_name, total := 0 }) := by
  refine ⟨?_, ?_, ?_⟩
  · intro habs
    have hnone : users.find? (fun v => v.id == id) = none := by
      rw [List.find?_eq_none]
      intro u hu
      simpa using habs u hu
    simp only [getUserHandler, hid, hnone]
  · intro u hu
    simp only [getUserHandler, hid, hu]
    simp only [foldl_sum_eq, zero_add]
  · intro hnone u hu
    have hfil : costs.filter (fun c => c.userid == id) = [] :=
      List.filter_eq_nil_iff.mpr (fun c hc => by simpa using hnone c hc)
    simp only [getUserHandler, hid, hu, hfil, List.foldl_nil]

/-- The user of the test suite's summary scenario. -/
def bob : User := { id := 2, first_name := "Bob", last_name := "Brown" }

/-- Bob's three cost records, with sums 10, 5 and 20. -/
def bobCosts : List SavedCost :=
  [{ _id := 0, description := "Lunch", category := "food", userid := 2,
     sum := 10, createdAt := 0 },
   { _id := 1, description := "Bus Ticket", category := "education",
     userid := 2, sum := 5, createdAt := 0 },
   { _id := 2, description := "Gym Membership", category := "sport",
     userid := 2, sum := 20, createdAt := 0 }]

/-- C7 witness: Bob's records `[10, 5, 20]` total exactly 35, and a summary
request for an id matching no user answers 404. -/
theorem user_summary_total_witness :
    getUserHandler [bob] bobCosts "2" =
      .ok 200 { id := 2, first_name := "Bob", last_name := "Brown",
                total := 35 } ∧
    getUserHandler [] [] "99999" = .error 404 "User not found." := by
  have h1 := (user_summary_total [bob] bobCosts "2" 2 (by decide)).2.1
    bob (by decide)
  have h2 := (user_summary_total [] [] "99999" 99999 (by decide)).1
    (fun u hu => absurd hu (List.not_mem_nil u))
  exact ⟨h1.trans (by decide), h2⟩

/-! ## C8 — unparseable report parameters fail fast, reads have no effects -/

/-- C8: when any of the three report parameters fails to parse, the handler
answers the 400 `InvalidParameter` error; the response is then independent
of the store (no storage query contributes to it), and the report operation
never changes the store, whatever its inputs. -/
theorem report_invalid_parameter (store : List SavedCost) (tz : Int)
    (idS yearS monthS : String)
    (h : parseIntJS idS = none ∨ parseIntJS yearS = none ∨
      parseIntJS monthS = none) :
    (reportHandler store tz idS yearS monthS).2 =
      .error 400 "Invalid id, year, or month parameter." ∧
    (∀ store' : List SavedCost, (reportHandler store' tz idS yearS monthS).2 =
       (reportHandler store tz idS yearS monthS).2) ∧
    (∀ (store₂ : List SavedCost) (a b c : String),
       (reportHandler store₂ tz a b c).1 = store₂) := by
  have key : ∀ st : List SavedCost, (reportHandler st tz idS yearS monthS).2 =
      .error 400 "Invalid id, year, or month parameter." := by
    intro st
    unfold reportHandler
    rcases hi : parseIntJS idS with _ | i <;>
      rcases hy2 : parseIntJS yearS with _ | y2 <;>
        rcases hm2 : parseIntJS monthS with _ | m2 <;>
          simp_all
  refine ⟨key store, fun store' => (key store').trans (key store).symm, ?_⟩
  intro store₂ a b c
  unfold reportHandler
  rcases hi : parseIntJS a with _ | i <;>
    rcases hj : parseIntJS b with _ | j <;>
      rcases hk : parseIntJS c with _ | k <;>
        simp [hi, hj, hk]

/-- C8 witness: the test suite's request `id=foo&year=2025&month=5` is
rejected with the 400 error on any store. -/
theorem report_invalid_parameter_witness :
    (reportHandler [] 0 "foo" "2025" "5").2 =
      .error 400 "Invalid id, year, or month parameter." ∧
    (∀ store' : List SavedCost, (reportHandler store' 0 "foo" "2025" "5").2 =
       (reportHandler [] 0 "foo" "2025" "5").2) ∧
    (∀ (store₂ : List SavedCost) (a b c : String),
       (reportHandler store₂ 0 a b c).1 = store₂) :=
  report_invalid_parameter [] 0 "foo" "2025" "5" (Or.inl (by decide))

/-! ## C10 — parameter parsing is prefix-based, not exact -/

/-- C10: `parseInt` accepts any string with a leading decimal prefix —
`"7abc"` and `"7.9"` both parse to 7, so the report and user-summary
operations proceed exactly as for `"7"` instead of failing with
`InvalidParameter`; only a string with no parseable leading integer (such as
`"abc"`) is rejected. -/
theorem parseInt_prefix_semantics :
    parseIntJS "7abc" = some 7 ∧
    parseIntJS "7.9" = some 7 ∧
    parseIntJS "abc" = none ∧
    (reportHandler [] 0 "7abc" "2025" "6").2 =
      (reportHandler [] 0 "7" "2025" "6").2 ∧
    (reportHandler [] 0 "7abc" "2025" "6").2 =
      .ok 200 { userid := 7, year := 2025, month := 6,
                costs := [("food", []), ("health", []), ("housing", []),
                          ("sport", []), ("education", [])] } ∧
    getUserHandler [{ id := 7, first_name := "Liron", last_name := "Golan" }]
        [] "7abc" =
      .ok 200 { id := 7, first_name := "Liron", last_name := "Golan",
                total := 0 } := by
  decide
